import Mathlib

/-!
Shallow embedding of `packages/git/src/browser/diff/git-diff-widget.tsx`
(class `GitDiffWidget`): the revision URI resolver (`getUriToOpen`), the
change-list navigation (`navigateRight` / `navigateLeft` /
`selectNextNode` / `selectPreviousNode`), content replacement
(`setContent`) and widget-state persistence (`storeState` /
`restoreState`).  Collaborators that live outside this file
(`@theia/core` URI, `DiffUris`, `GitFileStatus`, the superclass
`GitNavigableListWidget`, the repository provider and the git client)
are modelled from the specification, as marked on each definition.
-/

/-- Modelled from the spec: status tag of a ChangeEntry, one of
{Added, Modified, Deleted, Renamed, Copied, ...} (`GitFileStatus` from
`packages/git/src/common`, not part of this file); the status the spec
calls Added is named `New` in the code. -/
inductive GitFileStatus
  | New
  | Copied
  | Modified
  | Renamed
  | Deleted
  | Conflicted
deriving DecidableEq

/-- One changed file (`GitFileChange` / `GitFileChangeNode`): identity URI,
optional prior URI (set on renamed and copied entries) and a status tag. -/
structure GitFileChangeNode where
  uri : String
  oldUri : Option String
  status : GitFileStatus
deriving DecidableEq

/-- The embedding of `string | number` for `fromRevision`: either an explicit
revision identifier or a non-negative integer offset. -/
inductive FromRev
  | str (s : String)
  | num (n : Nat)
deriving DecidableEq

/-- Revision range of `Git.Options.Diff`: `toRevision` and `fromRevision`,
both optional. -/
structure RevisionRange where
  toRevision : Option String
  fromRevision : Option FromRev
deriving DecidableEq

/-- The diff options (`Git.Options.Diff`): an optional path-scoping URI and an
optional revision range. -/
structure DiffOptions where
  uri : Option String
  range : Option RevisionRange
deriving DecidableEq

/-- Modelled from the spec: the host URI type (`@theia/core` URI, not part of
this file) — a resource identifier with a scheme, a path and a query;
construction from a raw string yields the plain working-tree resource for
that string, and `withScheme` / `withQuery` replace the respective
component. -/
structure Uri where
  scheme : String
  path : String
  query : String
deriving DecidableEq

/-- Construction of a URI from a raw string (`new URI(s)`): the plain
working-tree resource for `s`. -/
def Uri.ofString (s : String) : Uri :=
  { scheme := "file", path := s, query := "" }

/-- Replace the scheme component (`URI.withScheme`). -/
def Uri.withScheme (u : Uri) (sch : String) : Uri :=
  { u with scheme := sch }

/-- Replace the query component (`URI.withQuery`). -/
def Uri.withQuery (u : Uri) (q : String) : Uri :=
  { u with query := q }

/-- Modelled from the spec: the scheme tagging git revision resources
(`GIT_RESOURCE_SCHEME` from `../git-resource`, not part of this file). -/
def GIT_RESOURCE_SCHEME : String := "gitrev"

/-- Modelled from the spec: the result of the revision URI resolver — either a
single resource, or "a combined diff identifier encoding both fromURI and
toURI" (`DiffUris.encode` from `@theia/core`, not part of this file). -/
inductive UriToOpen
  | plain (uri : Uri)
  | diff (fromUri toUri : Uri)
deriving DecidableEq

/-- The `toRevision` getter: `this.options.range && this.options.range.toRevision`. -/
def toRevisionOf (options : DiffOptions) : Option String :=
  options.range.bind RevisionRange.toRevision

/-- The `fromRevision` getter: `this.options.range && this.options.range.fromRevision`. -/
def fromRevisionOf (options : DiffOptions) : Option FromRev :=
  options.range.bind RevisionRange.fromRevision

/-- JavaScript string coercion of a possibly-`undefined` string when it is
concatenated: the absent value prints as the literal text `"undefined"`. -/
def jsStringOfOpt : Option String → String
  | some s => s
  | none => "undefined"

/-- JavaScript truthiness of a `string | undefined` value: `undefined` and the
empty string are falsy. -/
def jsTruthy : Option String → Bool
  | some s => !(s == "")
  | none => false

/-- The `fromURI` endpoint computed by `getUriToOpen` (lines 330–346): start
from `change.oldUri` when it is truthy (`if (change.oldUri)`, so an absent
and an empty prior URI both fall back to `change.uri`); then attach the
git resource scheme and the revision query — the explicit string when
`fromRevision` is a string, `toRevision + '~' + N` when it is a number and
`toRevision + '~1'` when it is absent (JavaScript concatenation, so an
absent `toRevision` prints as `"undefined"`). -/
def fromPart (options : DiffOptions) (change : GitFileChangeNode) : Uri :=
  let fromURI :=
    match change.oldUri with
    | some old => if old = "" then Uri.ofString change.uri else Uri.ofString old
    | none => Uri.ofString change.uri
  match fromRevisionOf options with
  | some (FromRev.str s) => (fromURI.withScheme GIT_RESOURCE_SCHEME).withQuery s
  | some (FromRev.num n) =>
      (fromURI.withScheme GIT_RESOURCE_SCHEME).withQuery
        (jsStringOfOpt (toRevisionOf options) ++ "~" ++ toString n)
  | none =>
      (fromURI.withScheme GIT_RESOURCE_SCHEME).withQuery
        (jsStringOfOpt (toRevisionOf options) ++ "~1")

/-- The `toURI` endpoint computed by `getUriToOpen` (lines 348–351): the
entry's own URI, tagged with the git resource scheme and `toRevision` when
`toRevision` is truthy, left as the plain working-tree resource otherwise. -/
def toPart (options : DiffOptions) (change : GitFileChangeNode) : Uri :=
  match toRevisionOf options with
  | some t =>
      if t = "" then Uri.ofString change.uri
      else ((Uri.ofString change.uri).withScheme GIT_RESOURCE_SCHEME).withQuery t
  | none => Uri.ofString change.uri

/-- The revision URI resolver `getUriToOpen` (lines 330–362): `fromURI` alone
for a deleted entry, `toURI` alone for a new entry, and the combined diff
identifier otherwise. -/
def getUriToOpen (options : DiffOptions) (change : GitFileChangeNode) : UriToOpen :=
  match change.status with
  | GitFileStatus.Deleted => UriToOpen.plain (fromPart options change)
  | GitFileStatus.New => UriToOpen.plain (toPart options change)
  | _ => UriToOpen.diff (fromPart options change) (toPart options change)

/-- The mutable state of the widget that the modelled operations read and
write: the current `fileChangeNodes` list (mirrored into the superclass's
`gitNodes` on every update), the active options and the selection. The
selection field is modelled from the spec: SelectionState is an index into
the current ChangeEntry list with `-1` meaning "none selected"; its storage
lives in the superclass `GitNavigableListWidget`, which is not part of this
file. -/
structure WidgetState where
  fileChangeNodes : List GitFileChangeNode
  options : DiffOptions
  selectedIndex : Int
deriving DecidableEq

/-- The superclass's `indexOfSelected`, modelled from the spec as the stored
selection index. -/
def indexOfSelected (s : WidgetState) : Int :=
  s.selectedIndex

/-- Modelled from the spec: the superclass's `selectNode`, selecting the entry
at position `i` of the current list. The call sites in this file pass a
concrete element of `gitNodes` (`this.gitNodes[i]`); the model passes its
position. -/
def selectNode (s : WidgetState) (i : Nat) : WidgetState :=
  { s with selectedIndex := (i : Int) }

/-- Modelled from the spec: the superclass's `getSelected` — the entry at the
selection index when one is selected, absence otherwise. -/
def getSelected (s : WidgetState) : Option GitFileChangeNode :=
  if 0 ≤ s.selectedIndex then s.fileChangeNodes[s.selectedIndex.toNat]? else none

/-- The `selectNextNode` step (lines 301–308): from an index strictly before
the last one, move to the next index; from the last index or from an unset
selection on a non-empty list, move to index 0; otherwise do nothing. -/
def selectNextNode (s : WidgetState) : WidgetState :=
  if 0 ≤ s.selectedIndex ∧ s.selectedIndex < (s.fileChangeNodes.length : Int) - 1 then
    selectNode s (s.selectedIndex + 1).toNat
  else if 0 < (s.fileChangeNodes.length : Int) ∧
      (s.selectedIndex = -1 ∨ s.selectedIndex = (s.fileChangeNodes.length : Int) - 1) then
    selectNode s 0
  else s

/-- The `selectPreviousNode` step (lines 310–317): from a positive index, move
to the previous index; from index 0, move to the last index; otherwise do
nothing. -/
def selectPreviousNode (s : WidgetState) : WidgetState :=
  if 0 < s.selectedIndex then
    selectNode s (s.selectedIndex - 1).toNat
  else if s.selectedIndex = 0 then
    selectNode s (s.fileChangeNodes.length - 1)
  else s

/-- Modelled from the spec: the per-open-editor diff navigator — it reports
whether it can navigate and whether a further hunk exists in either
direction; `next()` / `previous()` move inside the open file. -/
structure DiffNavigator where
  canNavigate : Bool
  hasNext : Bool
  hasPrevious : Bool

/-- Modelled from the spec: the editor-manager collaborator — `getByUri`
yields the already-open editor widget for a resource or absence (absence is
not an error), collapsed here to the diff navigator the provider would
return for that widget. -/
structure NavEnv where
  getByUri : UriToOpen → Option DiffNavigator

/-- Observable effects of a navigation step: an in-file hunk move in either
direction, or an open/reveal request issued to the editor manager for a
resource. -/
inductive NavEffect
  | hunkNext
  | hunkPrevious
  | openReveal (uri : UriToOpen)
deriving DecidableEq

/-- The `openSelected` helper (lines 323–328): reveal the selected change when
one is selected. -/
def openSelected (s : WidgetState) : List NavEffect :=
  match getSelected s with
  | some selected => [NavEffect.openReveal (getUriToOpen s.options selected)]
  | none => []

/-- The `navigateRight` step (lines 258–279). With a selected entry: when an
editor widget is open for its resolved URI, either move to the next hunk
(when the diff navigator can navigate and has one) or select and open the
next entry; when no widget is open, reveal the selected entry. With no
selection: on a non-empty list, select and open the first entry. The
`GitFileChangeNode.is` guard of the source holds for every modelled entry. -/
def navigateRight (env : NavEnv) (s : WidgetState) : WidgetState × List NavEffect :=
  match getSelected s with
  | some selected =>
    match env.getByUri (getUriToOpen s.options selected) with
    | some diffNavigator =>
        if diffNavigator.canNavigate && diffNavigator.hasNext then
          (s, [NavEffect.hunkNext])
        else
          (selectNextNode s, openSelected (selectNextNode s))
    | none => (s, [NavEffect.openReveal (getUriToOpen s.options selected)])
  | none =>
    if 0 < s.fileChangeNodes.length then
      (selectNode s 0, openSelected (selectNode s 0))
    else (s, [])

/-- The `navigateLeft` step (lines 281–299): symmetric to `navigateRight`
towards previous hunks and entries, except that with no selection it does
nothing. -/
def navigateLeft (env : NavEnv) (s : WidgetState) : WidgetState × List NavEffect :=
  match getSelected s with
  | some selected =>
    match env.getByUri (getUriToOpen s.options selected) with
    | some diffNavigator =>
        if diffNavigator.canNavigate && diffNavigator.hasPrevious then
          (s, [NavEffect.hunkPrevious])
        else
          (selectPreviousNode s, openSelected (selectPreviousNode s))
    | none => (s, [NavEffect.openReveal (getUriToOpen s.options selected)])
  | none => (s, [])

/-- State after one `navigateRight` invocation. -/
def nextStep (env : NavEnv) (s : WidgetState) : WidgetState :=
  (navigateRight env s).1

/-- State after `k` successive `navigateRight` invocations. -/
def nextSteps (env : NavEnv) : Nat → WidgetState → WidgetState
  | 0, s => s
  | k + 1, s => nextStep env (nextSteps env k s)

/-- A call to the version-control client, modelled from the spec:
`diff(repository, {range, uri})`. -/
inductive VcsCall
  | diff (repository : String) (range : Option RevisionRange) (uri : Option String)
deriving DecidableEq

/-- Modelled from the spec: the collaborators `setContent` consults — the
repository provider's `findRepositoryOrSelected` lookup, which may find no
repository, and the version-control client's `diff` operation returning the
list of changed entries. -/
structure GitEnv where
  findRepo : DiffOptions → Option String
  diff : String → Option RevisionRange → Option String → List GitFileChangeNode

/-- Modelled from the spec: replacement of the ChangeEntry list — the
SelectionState is reset implicitly whenever the list is replaced; the
selection storage lives in the superclass `GitNavigableListWidget`, which
is not part of this file. -/
def replaceFileChangeNodes (s : WidgetState) (nodes : List GitFileChangeNode) : WidgetState :=
  { s with fileChangeNodes := nodes, selectedIndex := -1 }

/-- The `setContent` operation (lines 91–102): store the new options, look the
repository up; when one is found, issue one `diff` call to the
version-control client and replace the ChangeEntry list with its result;
when none is found, do nothing further. -/
def setContent (env : GitEnv) (s : WidgetState) (options : DiffOptions) :
    WidgetState × List VcsCall :=
  let s1 := { s with options := options }
  match env.findRepo options with
  | some repository =>
      (replaceFileChangeNodes s1 (env.diff repository options.range options.uri),
        [VcsCall.diff repository options.range options.uri])
  | none => (s1, [])

/-- The object produced by `storeState` (lines 104–110): the current
`fileChangeNodes` and `options`. -/
structure StoredState where
  fileChangeNodes : List GitFileChangeNode
  options : DiffOptions
deriving DecidableEq

/-- The `storeState` operation (lines 104–110). -/
def storeState (s : WidgetState) : StoredState :=
  { fileChangeNodes := s.fileChangeNodes, options := s.options }

/-- The `restoreState` operation (lines 113–117): replace the ChangeEntry list
and the options with the stored ones; no call to the version-control client
is made. -/
def restoreState (s : WidgetState) (oldState : StoredState) :
    WidgetState × List VcsCall :=
  ({ replaceFileChangeNodes s oldState.fileChangeNodes with options := oldState.options }, [])

/-- The `openChange` operation (lines 370–373): resolve the change's URI and
issue an open request for it to the editor manager; the issued request is
the observable result. -/
def openChange (options : DiffOptions) (change : GitFileChangeNode) : UriToOpen :=
  getUriToOpen options change

/-- The `openChanges` operation (lines 364–368): find the first entry whose
URI equals the argument; when none exists return absence and issue no open
request, otherwise delegate to `openChange` on that entry. -/
def openChanges (s : WidgetState) (uri : String) : Option UriToOpen :=
  match s.fileChangeNodes.find? (fun n => n.uri == uri) with
  | some change => some (openChange s.options change)
  | none => none

/-- A modified entry used in concrete scenarios. -/
def entryA : GitFileChangeNode :=
  { uri := "a.txt", oldUri := none, status := GitFileStatus.Modified }

/-- A second modified entry used in concrete scenarios. -/
def entryB : GitFileChangeNode :=
  { uri := "b.txt", oldUri := none, status := GitFileStatus.Modified }

/-- A deleted entry used in concrete scenarios. -/
def entryDel : GitFileChangeNode :=
  { uri := "d.txt", oldUri := none, status := GitFileStatus.Deleted }

/-- A new (added) entry used in concrete scenarios. -/
def entryNew : GitFileChangeNode :=
  { uri := "n.txt", oldUri := none, status := GitFileStatus.New }

/-- A renamed entry with prior URI `"a.txt"` and own URI `"b.txt"`. -/
def entryRenamed : GitFileChangeNode :=
  { uri := "b.txt", oldUri := some "a.txt", status := GitFileStatus.Renamed }

/-- A renamed entry whose prior URI is the empty (falsy) string. -/
def entryEmptyOld : GitFileChangeNode :=
  { uri := "b.txt", oldUri := some "", status := GitFileStatus.Renamed }

/-- Diff options with no path scope and no revision range. -/
def noOptions : DiffOptions := { uri := none, range := none }

/-- Diff options with `fromRevision = 3` and `toRevision` absent. -/
def optsHeadNum3 : DiffOptions :=
  { uri := none, range := some { toRevision := none, fromRevision := some (FromRev.num 3) } }

/-- Diff options with a revision range whose two endpoints are both absent. -/
def optsHeadAbsent : DiffOptions :=
  { uri := none, range := some { toRevision := none, fromRevision := none } }

/-- Diff options with `toRevision = "abc123"` and `fromRevision` absent. -/
def optsAbc123 : DiffOptions :=
  { uri := none, range := some { toRevision := some "abc123", fromRevision := none } }

/-- Diff options with `toRevision = "abc123"` and the explicit revision string
`"deadbeef"` as `fromRevision`. -/
def optsFromStr : DiffOptions :=
  { uri := none,
    range := some { toRevision := some "abc123", fromRevision := some (FromRev.str "deadbeef") } }

/-- An editor environment with no open editor for any resource. -/
def envClosed : NavEnv := { getByUri := fun _ => none }

/-- An editor environment where every resource has an open editor whose diff
navigator has no further hunk in either direction. -/
def envOpenStuck : NavEnv :=
  { getByUri := fun _ => some { canNavigate := true, hasNext := false, hasPrevious := false } }

/-- A two-entry widget state with nothing selected. -/
def sAB : WidgetState :=
  { fileChangeNodes := [entryA, entryB], options := noOptions, selectedIndex := -1 }

/-- A two-entry widget state with the last entry selected. -/
def sAB1 : WidgetState :=
  { fileChangeNodes := [entryA, entryB], options := noOptions, selectedIndex := 1 }

/-- A git environment that finds the repository `"repo"` and whose diff
operation returns the single entry `entryB`. -/
def envRepo : GitEnv :=
  { findRepo := fun _ => some "repo", diff := fun _ _ _ => [entryB] }

/-- A git environment in which no repository is found or selected. -/
def envNoRepo : GitEnv :=
  { findRepo := fun _ => none, diff := fun _ _ _ => [] }

theorem selectNode_fileChangeNodes (s : WidgetState) (i : Nat) :
    (selectNode s i).fileChangeNodes = s.fileChangeNodes := rfl

theorem selectNextNode_fileChangeNodes (s : WidgetState) :
    (selectNextNode s).fileChangeNodes = s.fileChangeNodes := by
  unfold selectNextNode
  split_ifs <;> rfl

theorem selectPreviousNode_fileChangeNodes (s : WidgetState) :
    (selectPreviousNode s).fileChangeNodes = s.fileChangeNodes := by
  unfold selectPreviousNode
  split_ifs <;> rfl

theorem nextStep_fileChangeNodes (env : NavEnv) (s : WidgetState) :
    (nextStep env s).fileChangeNodes = s.fileChangeNodes := by
  cases h : getSelected s with
  | none =>
      simp only [nextStep, navigateRight, h]
      split <;> rfl
  | some c =>
      simp only [nextStep, navigateRight, h]
      cases he : env.getByUri (getUriToOpen s.options c) with
      | none => rfl
      | some d =>
          simp only [he]
          split_ifs <;> simp [selectNextNode_fileChangeNodes]

theorem nextSteps_fileChangeNodes (env : NavEnv) (k : Nat) (s : WidgetState) :
    (nextSteps env k s).fileChangeNodes = s.fileChangeNodes := by
  induction k with
  | zero => rfl
  | succ k ih => simp [nextSteps, nextStep_fileChangeNodes, ih]

theorem getSelected_isSome (s : WidgetState) (h0 : 0 ≤ s.selectedIndex)
    (h1 : s.selectedIndex < (s.fileChangeNodes.length : Int)) :
    ∃ c, getSelected s = some c := by
  unfold getSelected
  rw [if_pos h0]
  have h : s.selectedIndex.toNat < s.fileChangeNodes.length := by omega
  exact ⟨_, List.getElem?_eq_getElem h⟩

theorem nextStep_eq_selectNextNode (env : NavEnv) (s : WidgetState)
    (henv : ∀ u, ∃ d, env.getByUri u = some d ∧ (d.canNavigate && d.hasNext) = false)
    (h0 : 0 ≤ s.selectedIndex)
    (h1 : s.selectedIndex < (s.fileChangeNodes.length : Int)) :
    nextStep env s = selectNextNode s := by
  obtain ⟨c, hc⟩ := getSelected_isSome s h0 h1
  obtain ⟨d, hd, hcond⟩ := henv (getUriToOpen s.options c)
  simp [nextStep, navigateRight, hc, hd, hcond]

theorem selectNextNode_selectedIndex_mid (s : WidgetState)
    (h0 : 0 ≤ s.selectedIndex)
    (h1 : s.selectedIndex < (s.fileChangeNodes.length : Int) - 1) :
    (selectNextNode s).selectedIndex = s.selectedIndex + 1 := by
  unfold selectNextNode
  rw [if_pos ⟨h0, h1⟩]
  simp only [selectNode]
  omega

theorem selectNextNode_selectedIndex_last (s : WidgetState)
    (hlen : 0 < s.fileChangeNodes.length)
    (h : s.selectedIndex = (s.fileChangeNodes.length : Int) - 1) :
    (selectNextNode s).selectedIndex = 0 := by
  unfold selectNextNode
  rw [if_neg (by omega), if_pos ⟨by omega, Or.inr h⟩]
  rfl

theorem selectPreviousNode_selectedIndex_pos (s : WidgetState)
    (h : 0 < s.selectedIndex) :
    (selectPreviousNode s).selectedIndex = s.selectedIndex - 1 := by
  unfold selectPreviousNode
  rw [if_pos h]
  simp only [selectNode]
  omega

theorem selectPreviousNode_selectedIndex_zero (s : WidgetState)
    (h : s.selectedIndex = 0) (hlen : 0 < s.fileChangeNodes.length) :
    (selectPreviousNode s).selectedIndex = (s.fileChangeNodes.length : Int) - 1 := by
  unfold selectPreviousNode
  rw [if_neg (by omega), if_pos h]
  simp only [selectNode]
  omega

theorem nextSteps_selectedIndex (env : NavEnv) (s0 : WidgetState)
    (henv : ∀ u, ∃ d, env.getByUri u = some d ∧ (d.canNavigate && d.hasNext) = false)
    (hsel : s0.selectedIndex = -1) (hne : s0.fileChangeNodes ≠ [])
    (k : Nat) (hk : k < s0.fileChangeNodes.length) :
    (nextSteps env (k + 1) s0).selectedIndex = (k : Int) := by
  induction k with
  | zero =>
      have hs : getSelected s0 = none := by
        unfold getSelected
        rw [if_neg (by omega)]
      have hlen : 0 < s0.fileChangeNodes.length := List.length_pos.mpr hne
      show (nextStep env (nextSteps env 0 s0)).selectedIndex = 0
      simp [nextSteps, nextStep, navigateRight, hs, hlen, selectNode]
  | succ k ih =>
      have hk' : k < s0.fileChangeNodes.length := Nat.lt_of_succ_lt hk
      have ihv := ih hk'
      have hn := nextSteps_fileChangeNodes env (k + 1) s0
      have h0 : 0 ≤ (nextSteps env (k + 1) s0).selectedIndex := by
        rw [ihv]; omega
      have h1 : (nextSteps env (k + 1) s0).selectedIndex <
          ((nextSteps env (k + 1) s0).fileChangeNodes.length : Int) := by
        rw [ihv, hn]; omega
      have h2 : (nextSteps env (k + 1) s0).selectedIndex <
          ((nextSteps env (k + 1) s0).fileChangeNodes.length : Int) - 1 := by
        rw [ihv, hn]; omega
      show (nextStep env (nextSteps env (k + 1) s0)).selectedIndex = ((k + 1 : Nat) : Int)
      rw [nextStep_eq_selectNextNode env _ henv h0 h1,
        selectNextNode_selectedIndex_mid _ h0 h2, ihv]
      omega

theorem nextSteps_wraps (env : NavEnv) (s0 : WidgetState)
    (henv : ∀ u, ∃ d, env.getByUri u = some d ∧ (d.canNavigate && d.hasNext) = false)
    (hsel : s0.selectedIndex = -1) (hne : s0.fileChangeNodes ≠ []) :
    (nextSteps env (s0.fileChangeNodes.length + 1) s0).selectedIndex = 0 := by
  have hlen : 0 < s0.fileChangeNodes.length := List.length_pos.mpr hne
  have hprev := nextSteps_selectedIndex env s0 henv hsel hne
    (s0.fileChangeNodes.length - 1) (by omega)
  have hx : s0.fileChangeNodes.length - 1 + 1 = s0.fileChangeNodes.length := by omega
  rw [hx] at hprev
  have hnodes := nextSteps_fileChangeNodes env s0.fileChangeNodes.length s0
  show (nextStep env (nextSteps env s0.fileChangeNodes.length s0)).selectedIndex = 0
  rw [nextStep_eq_selectNextNode env _ henv (by rw [hprev]; omega)
    (by rw [hprev, hnodes]; omega)]
  apply selectNextNode_selectedIndex_last
  · rw [hnodes]; exact hlen
  · rw [hprev, hnodes]; omega

/-- Claim C1 — behavior of the code at the failing input: with `toRevision`
absent, `getUriToOpen` attaches the query `toRevision + '~' + N`, which
JavaScript string concatenation turns into the literal `"undefined~3"`
(and `"undefined~1"` in the default branch) — not `"HEAD~3"` / `"HEAD~1"`
as the claim (and `renderRevision` in the same file, which applies the
`|| 'HEAD'` fallback) prescribe. -/
theorem fromPart_missing_toRevision_literal_undefined :
    (fromPart optsHeadNum3 entryA).query = "undefined~3" ∧
    "undefined~3" ≠ "HEAD~3" ∧
    (fromPart optsHeadAbsent entryA).query = "undefined~1" ∧
    "undefined~1" ≠ "HEAD~1" :=
  ⟨rfl, by decide, rfl, by decide⟩

/-- Claim C2 — counterexample: on a two-entry list with no editor open for any
resource, the first next-change invocation seeds the selection at index 0,
but the second re-reveals the selected entry without advancing, so the
selection stays at 0 instead of visiting index 1 as the claim states. -/
theorem navigateRight_no_open_editor_stalls :
    (nextSteps envClosed 1 sAB).selectedIndex = 0 ∧
    (nextSteps envClosed 2 sAB).selectedIndex = 0 ∧
    (nextSteps envClosed 2 sAB).selectedIndex ≠ 1 := by
  decide

/-- Claim C2 — amended: when every resolved resource has an open editor whose
diff navigator cannot advance, repeated next-change from unset selection
visits indices 0, 1, ..., n-1 in order and then wraps to 0; previous-change
with nothing selected is a no-op under any editor environment; next-change
with nothing selected seeds the selection at index 0 under any editor
environment; and when no editor is open for the selected entry's resolved
URI, next-change issues a reveal request for it and leaves the state
unchanged. -/
theorem navigateRight_visits_in_order (env : NavEnv) (s0 : WidgetState)
    (henv : ∀ u, ∃ d, env.getByUri u = some d ∧ (d.canNavigate && d.hasNext) = false)
    (hsel : s0.selectedIndex = -1) (hne : s0.fileChangeNodes ≠ []) :
    (∀ k, k < s0.fileChangeNodes.length →
        (nextSteps env (k + 1) s0).selectedIndex = (k : Int)) ∧
    (nextSteps env (s0.fileChangeNodes.length + 1) s0).selectedIndex = 0 ∧
    (∀ env' : NavEnv, navigateLeft env' s0 = (s0, [])) ∧
    (∀ env' : NavEnv, (navigateRight env' s0).1.selectedIndex = 0) ∧
    (∀ (env₀ : NavEnv) (s : WidgetState) (c : GitFileChangeNode),
        (∀ u, env₀.getByUri u = none) → getSelected s = some c →
        navigateRight env₀ s = (s, [NavEffect.openReveal (getUriToOpen s.options c)])) := by
  have hs0 : getSelected s0 = none := by
    unfold getSelected
    rw [if_neg (by omega)]
  have hlen : 0 < s0.fileChangeNodes.length := List.length_pos.mpr hne
  refine ⟨fun k hk => nextSteps_selectedIndex env s0 henv hsel hne k hk,
    nextSteps_wraps env s0 henv hsel hne, ?_, ?_, ?_⟩
  · intro env'
    simp [navigateLeft, hs0]
  · intro env'
    simp [navigateRight, hs0, hlen, selectNode]
  · intro env₀ s c h0 hc
    simp [navigateRight, hc, h0]

/-- Claim C2 — witness for the amended statement at concrete inputs: on the
two-entry list `sAB`, with every resource open behind a stuck navigator,
two next-steps reach index 1 and a third wraps to 0; previous-change from
unset is a no-op; next-change from unset seeds index 0; with no editor open
and entry `entryA` selected, next-change reveals it and changes nothing. -/
theorem navigateRight_visits_in_order_witness :
    (nextSteps envOpenStuck 2 sAB).selectedIndex = 1 ∧
    (nextSteps envOpenStuck 3 sAB).selectedIndex = 0 ∧
    navigateLeft envOpenStuck sAB = (sAB, []) ∧
    (navigateRight envOpenStuck sAB).1.selectedIndex = 0 ∧
    navigateRight envClosed sAB1 =
      (sAB1, [NavEffect.openReveal (getUriToOpen sAB1.options entryB)]) := by
  have h := navigateRight_visits_in_order envOpenStuck sAB
    (fun u => ⟨_, rfl, rfl⟩) rfl (by decide)
  exact ⟨h.1 1 (by decide), h.2.1, h.2.2.1 envOpenStuck, h.2.2.2.1 envOpenStuck,
    h.2.2.2.2 envClosed sAB1 entryB (fun u => rfl) (by decide)⟩

/-- Claim C3: from any selected index `i` in `[0, n-1]`, a next-change
selection step followed by a previous-change selection step returns the
selection to `i`, including the wraparound boundary `i = n-1`. -/
theorem selectNext_selectPrevious_roundtrip (s : WidgetState) (i : Int)
    (h0 : 0 ≤ i) (h1 : i < (s.fileChangeNodes.length : Int))
    (hs : s.selectedIndex = i) :
    (selectPreviousNode (selectNextNode s)).selectedIndex = i := by
  subst hs
  have hlen : 0 < s.fileChangeNodes.length := by omega
  have hnodes := selectNextNode_fileChangeNodes s
  rcases lt_or_ge s.selectedIndex ((s.fileChangeNodes.length : Int) - 1) with hmid | hlast
  · have hn := selectNextNode_selectedIndex_mid s h0 hmid
    rw [selectPreviousNode_selectedIndex_pos _ (by rw [hn]; omega), hn]
    omega
  · have heq : s.selectedIndex = (s.fileChangeNodes.length : Int) - 1 := by omega
    have hn := selectNextNode_selectedIndex_last s hlen heq
    rw [selectPreviousNode_selectedIndex_zero _ hn (by rw [hnodes]; exact hlen), hnodes]
    omega

/-- Claim C3 — witness: on the two-entry state `sAB1` selected at the last
index 1, next then previous returns to index 1 across the wraparound. -/
theorem selectNext_selectPrevious_roundtrip_witness :
    (selectPreviousNode (selectNextNode sAB1)).selectedIndex = 1 :=
  selectNext_selectPrevious_roundtrip sAB1 1 (by decide) (by decide) rfl

/-- Claim C4: `getUriToOpen` returns exactly the `fromURI` endpoint with no
"to" component for a deleted entry, exactly the `toURI` endpoint with no
"from" component for a new (added) entry, and the combined diff identifier
encoding both endpoints otherwise. -/
theorem getUriToOpen_status_shape (options : DiffOptions) (change : GitFileChangeNode) :
    (change.status = GitFileStatus.Deleted →
        getUriToOpen options change = UriToOpen.plain (fromPart options change)) ∧
    (change.status = GitFileStatus.New →
        getUriToOpen options change = UriToOpen.plain (toPart options change)) ∧
    (change.status ≠ GitFileStatus.Deleted → change.status ≠ GitFileStatus.New →
        getUriToOpen options change =
          UriToOpen.diff (fromPart options change) (toPart options change)) := by
  obtain ⟨u, o, st⟩ := change
  cases st <;> simp [getUriToOpen]

/-- Claim C4 — witness: concrete deleted, new and modified entries produce
exactly the `from` endpoint, exactly the `to` endpoint, and the combined
identifier respectively. -/
theorem getUriToOpen_status_shape_witness :
    getUriToOpen noOptions entryDel = UriToOpen.plain (fromPart noOptions entryDel) ∧
    getUriToOpen noOptions entryNew = UriToOpen.plain (toPart noOptions entryNew) ∧
    getUriToOpen noOptions entryA =
      UriToOpen.diff (fromPart noOptions entryA) (toPart noOptions entryA) :=
  ⟨(getUriToOpen_status_shape noOptions entryDel).1 rfl,
   (getUriToOpen_status_shape noOptions entryNew).2.1 rfl,
   (getUriToOpen_status_shape noOptions entryA).2.2 (by decide) (by decide)⟩

/-- Claim C5: with `toRevision` present, the `fromURI` query is the explicit
identifier string itself when `fromRevision` is a string, and with
`fromRevision` absent and `toRevision = "abc123"` it is `"abc123~1"`. -/
theorem fromPart_query_explicit_and_default (options : DiffOptions)
    (change : GitFileChangeNode) (t : String)
    (_ht : toRevisionOf options = some t) :
    (∀ s, fromRevisionOf options = some (FromRev.str s) →
        (fromPart options change).query = s) ∧
    (toRevisionOf options = some "abc123" → fromRevisionOf options = none →
        (fromPart options change).query = "abc123~1") := by
  constructor
  · intro s hs
    cases ho : change.oldUri <;>
      simp [fromPart, hs, ho, Uri.withQuery, Uri.withScheme, Uri.ofString]
  · intro h123 hnone
    cases ho : change.oldUri <;>
      simp [fromPart, hnone, h123, ho, jsStringOfOpt, Uri.withQuery, Uri.withScheme,
        Uri.ofString]

/-- Claim C5 — witness: with `toRevision = "abc123"`, the explicit string
`"deadbeef"` is attached verbatim, and an absent `fromRevision` yields the
query `"abc123~1"`. -/
theorem fromPart_query_explicit_and_default_witness :
    (fromPart optsFromStr entryA).query = "deadbeef" ∧
    (fromPart optsAbc123 entryA).query = "abc123~1" :=
  ⟨(fromPart_query_explicit_and_default optsFromStr entryA "abc123" rfl).1 "deadbeef" rfl,
   (fromPart_query_explicit_and_default optsAbc123 entryA "abc123" rfl).2 rfl rfl⟩

theorem fromPart_path (options : DiffOptions) (change : GitFileChangeNode) :
    (fromPart options change).path =
      (match change.oldUri with
       | some old => if old = "" then change.uri else old
       | none => change.uri) := by
  cases ho : change.oldUri with
  | none =>
      rcases hf : fromRevisionOf options with _ | f
      · simp [fromPart, hf, ho, Uri.withScheme, Uri.withQuery, Uri.ofString]
      · cases f <;> simp [fromPart, hf, ho, Uri.withScheme, Uri.withQuery, Uri.ofString]
  | some old =>
      by_cases he : old = ""
      · rcases hf : fromRevisionOf options with _ | f
        · simp [fromPart, hf, ho, he, Uri.withScheme, Uri.withQuery, Uri.ofString]
        · cases f <;> simp [fromPart, hf, ho, he, Uri.withScheme, Uri.withQuery, Uri.ofString]
      · rcases hf : fromRevisionOf options with _ | f
        · simp [fromPart, hf, ho, he, Uri.withScheme, Uri.withQuery, Uri.ofString]
        · cases f <;> simp [fromPart, hf, ho, he, Uri.withScheme, Uri.withQuery, Uri.ofString]

/-- Claim C6: the `fromURI` endpoint is built from the entry's prior URI when
a (truthy, i.e. non-empty) prior URI is present and from its own URI
otherwise — the source's `if (change.oldUri)` makes an empty prior URI
fall back to `change.uri` as well; the `toURI` endpoint is built from the
entry's own URI, tagged with the git resource scheme and `toRevision` when
a (non-empty) `toRevision` identifier is present, and left as the plain
working-tree resource when `toRevision` is absent. -/
theorem getUriToOpen_endpoint_sources (options : DiffOptions) (change : GitFileChangeNode) :
    (∀ old, change.oldUri = some old → old ≠ "" → (fromPart options change).path = old) ∧
    (change.oldUri = none → (fromPart options change).path = change.uri) ∧
    (change.oldUri = some "" → (fromPart options change).path = change.uri) ∧
    ((toPart options change).path = change.uri) ∧
    (∀ t, toRevisionOf options = some t → t ≠ "" →
        toPart options change =
          ((Uri.ofString change.uri).withScheme GIT_RESOURCE_SCHEME).withQuery t) ∧
    (toRevisionOf options = none → toPart options change = Uri.ofString change.uri) := by
  have hp := fromPart_path options change
  refine ⟨?_, ?_, ?_, ?_, ?_, ?_⟩
  · intro old ho he
    rw [ho] at hp
    rw [hp]
    simp [he]
  · intro ho
    rw [ho] at hp
    exact hp
  · intro ho
    rw [ho] at hp
    rw [hp]
    simp
  · rcases ht : toRevisionOf options with _ | t
    · simp [toPart, ht, Uri.ofString]
    · by_cases he : t = "" <;>
        simp [toPart, ht, he, Uri.withScheme, Uri.withQuery, Uri.ofString]
  · intro t ht hne
    simp [toPart, ht, hne]
  · intro ht
    simp [toPart, ht]

/-- Claim C6 — witness: for the renamed entry with prior URI `"a.txt"` and own
URI `"b.txt"` under `toRevision = "abc123"`, the `fromURI` endpoint is
built from `"a.txt"`, the `toURI` endpoint from `"b.txt"` tagged with the
git resource scheme and `"abc123"`; with an empty (falsy) prior URI the
`fromURI` endpoint falls back to the entry's own URI; and with no revision
range the `toURI` endpoint stays the plain working-tree resource. -/
theorem getUriToOpen_endpoint_sources_witness :
    (fromPart optsAbc123 entryRenamed).path = "a.txt" ∧
    (fromPart optsAbc123 entryEmptyOld).path = "b.txt" ∧
    (toPart optsAbc123 entryRenamed).path = "b.txt" ∧
    toPart optsAbc123 entryRenamed =
      ((Uri.ofString "b.txt").withScheme GIT_RESOURCE_SCHEME).withQuery "abc123" ∧
    toPart noOptions entryRenamed = Uri.ofString "b.txt" :=
  ⟨(getUriToOpen_endpoint_sources optsAbc123 entryRenamed).1 "a.txt" rfl (by decide),
   (getUriToOpen_endpoint_sources optsAbc123 entryEmptyOld).2.2.1 rfl,
   (getUriToOpen_endpoint_sources optsAbc123 entryRenamed).2.2.2.1,
   (getUriToOpen_endpoint_sources optsAbc123 entryRenamed).2.2.2.2.1 "abc123" rfl (by decide),
   (getUriToOpen_endpoint_sources noOptions entryRenamed).2.2.2.2.2 rfl⟩

/-- Claim C7 — counterexample: when no repository is found or selected for the
new options, `setContent` keeps the previous (non-empty) ChangeEntry list
and issues no diff call at all, contradicting "always discards ... and
exactly one refetch". -/
theorem setContent_no_repository_counterexample :
    (setContent envNoRepo sAB noOptions).1.fileChangeNodes = sAB.fileChangeNodes ∧
    sAB.fileChangeNodes ≠ [] ∧
    (setContent envNoRepo sAB noOptions).2.length ≠ 1 := by
  decide

/-- Claim C7 — amended: when a repository is found or selected for the new
options, `setContent` replaces the ChangeEntry list wholesale with the
result of the diff operation and issues exactly one diff call to the
version-control client; when none is found, the previous list is kept and
no diff call is issued. -/
theorem setContent_refetch_behavior (env : GitEnv) (s : WidgetState)
    (options : DiffOptions) :
    (∀ repository, env.findRepo options = some repository →
        (setContent env s options).1.fileChangeNodes =
          env.diff repository options.range options.uri ∧
        (setContent env s options).2 =
          [VcsCall.diff repository options.range options.uri]) ∧
    (env.findRepo options = none →
        (setContent env s options).1.fileChangeNodes = s.fileChangeNodes ∧
        (setContent env s options).2 = []) := by
  constructor
  · intro repository hr
    simp [setContent, hr, replaceFileChangeNodes]
  · intro hr
    simp [setContent, hr]

/-- Claim C7 — witness for the amended statement: with the repository `"repo"`
found, `setContent` replaces the list of `sAB` with the diff result
`[entryB]` and issues exactly the one corresponding diff call. -/
theorem setContent_refetch_behavior_witness :
    (setContent envRepo sAB noOptions).1.fileChangeNodes = [entryB] ∧
    (setContent envRepo sAB noOptions).2 = [VcsCall.diff "repo" none none] :=
  (setContent_refetch_behavior envRepo sAB noOptions).1 "repo" rfl

/-- Claim C8: whenever the ChangeEntry list is replaced — by `setContent`
applying new options with a repository found, or by `restoreState` — the
selection state is reset to "none selected" (index -1). -/
theorem list_replacement_resets_selection (env : GitEnv) (s : WidgetState)
    (options : DiffOptions) (repository : String) (oldState : StoredState)
    (h : env.findRepo options = some repository) :
    (setContent env s options).1.selectedIndex = -1 ∧
    (restoreState s oldState).1.selectedIndex = -1 := by
  constructor
  · simp [setContent, h, replaceFileChangeNodes]
  · rfl

/-- Claim C8 — witness: applying `setContent` with the repository found, and
restoring the stored state, both leave the selection of `sAB1` unset. -/
theorem list_replacement_resets_selection_witness :
    (setContent envRepo sAB1 noOptions).1.selectedIndex = -1 ∧
    (restoreState sAB1 (storeState sAB1)).1.selectedIndex = -1 :=
  list_replacement_resets_selection envRepo sAB1 noOptions "repo" (storeState sAB1) rfl

theorem find_first_of_split {α : Type} (p : α → Bool) (pre : List α) (c : α)
    (post : List α) (hpre : ∀ b ∈ pre, p b = false) (hc : p c = true) :
    (pre ++ c :: post).find? p = some c := by
  induction pre with
  | nil =>
      rw [List.nil_append, List.find?_cons_of_pos _ hc]
  | cons b pre ih =>
      have hb := hpre b (List.mem_cons_self b pre)
      rw [List.cons_append, List.find?_cons_of_neg _ (by simp [hb])]
      exact ih (fun x hx => hpre x (List.mem_cons_of_mem b hx))

/-- Claim C9: `openChanges` returns absence and issues no editor open request
when no entry of the current list has exactly the given URI; when a
matching entry exists, it delegates to `openChange` on the first such
entry and returns its result. -/
theorem openChanges_first_match (s : WidgetState) (uri : String) :
    ((∀ c ∈ s.fileChangeNodes, c.uri ≠ uri) → openChanges s uri = none) ∧
    (∀ (pre : List GitFileChangeNode) (c : GitFileChangeNode)
        (post : List GitFileChangeNode),
        s.fileChangeNodes = pre ++ c :: post →
        (∀ b ∈ pre, b.uri ≠ uri) → c.uri = uri →
        openChanges s uri = some (openChange s.options c)) := by
  constructor
  · intro h
    have hf : s.fileChangeNodes.find? (fun n => n.uri == uri) = none := by
      rw [List.find?_eq_none]
      intro x hx
      simp [h x hx]
    simp [openChanges, hf]
  · intro pre c post hsplit hpre hc
    have hf : s.fileChangeNodes.find? (fun n => n.uri == uri) = some c := by
      rw [hsplit]
      apply find_first_of_split
      · intro b hb
        simp [hpre b hb]
      · simp [hc]
    simp [openChanges, hf]

/-- Claim C9 — witness: on the list of `sAB`, a URI matching no entry yields
absence, and the URI of `entryB` (preceded by the non-matching `entryA`)
delegates to `openChange` on `entryB`. -/
theorem openChanges_first_match_witness :
    openChanges sAB "zzz.txt" = none ∧
    openChanges sAB "b.txt" = some (openChange sAB.options entryB) :=
  ⟨(openChanges_first_match sAB "zzz.txt").1 (by decide),
   (openChanges_first_match sAB "b.txt").2 [entryA] entryB [] rfl (by decide) rfl⟩

/-- Claim C10: `restoreState` applied to the object produced by `storeState`
restores exactly the same `fileChangeNodes` list and the same options, and
issues no call to the version-control client. -/
theorem storeState_restoreState_roundtrip (s : WidgetState) :
    (restoreState s (storeState s)).1.fileChangeNodes = s.fileChangeNodes ∧
    (restoreState s (storeState s)).1.options = s.options ∧
    (restoreState s (storeState s)).2 = [] :=
  ⟨rfl, rfl, rfl⟩
